import Mathlib

/-!
Verification development for the band-store / index / threshold-classifier
pipeline of `version_02_rasterio.py` (a Dash geovisualisation dashboard).
Raster arrays are embedded as functions over `Fin`-indexed grids with
rational pixel values, and Python's `round` (banker's rounding) is
modelled exactly.  Decoded file payloads in the loader model are
abstracted to a single rational value per file, since the loader logic
under study (band-name derivation, key construction, dict insertion)
never inspects the pixel data.
-/

namespace Geoviz

/-- Python 3 `round` to the nearest integer: round half to even. -/
def roundHalfEven (q : ℚ) : ℤ :=
  if q - Int.floor q < 1/2 then Int.floor q
  else if q - Int.floor q > 1/2 then Int.floor q + 1
  else if 2 ∣ Int.floor q then Int.floor q else Int.floor q + 1

/-- Python `round(v, 1)`: round to one decimal place, ties to even. -/
def round1 (q : ℚ) : ℚ := (roundHalfEven (q * 10) : ℚ) / 10

/-- `set_limit(limits, idx)` from the source: `math.floor` (negative case)
or `math.ceil` (non-negative case) at the hundredths place, then Python
`round(·, 1)` to tenths. -/
def set_limit (limits : Fin 3 → ℚ) (idx : Fin 3) : ℚ :=
  if limits idx < 0 then round1 ((Int.floor (limits idx * 100) : ℚ) / 100)
  else round1 ((Int.ceil (limits idx * 100) : ℚ) / 100)

/-- A Python 3-tuple of rationals, indexed positionally like `limits[idx]`. -/
def tri (a b c : ℚ) : Fin 3 → ℚ
  | 0 => a
  | 1 => b
  | 2 => c

/-- A 2D raster array with `m` rows and `n` columns of rational pixels. -/
abbrev Arr (m n : ℕ) : Type := Fin m → Fin n → ℚ

variable {m n : ℕ}

/-- `np.min` over a non-empty 2D array. -/
def amin (A : Arr (m+1) (n+1)) : ℚ :=
  Finset.univ.inf' Finset.univ_nonempty (fun p : Fin (m+1) × Fin (n+1) => A p.1 p.2)

/-- `np.max` over a non-empty 2D array. -/
def amax (A : Arr (m+1) (n+1)) : ℚ :=
  Finset.univ.sup' Finset.univ_nonempty (fun p : Fin (m+1) × Fin (n+1) => A p.1 p.2)

/-- Row-major flattening of a 2D array, as used by reductions. -/
def flattenA (A : Arr m n) : List ℚ :=
  (List.finRange m).flatMap (fun i => (List.finRange n).map (A i))

/-- `np.median`: sort the flattened values; the middle element for odd
length, the mean of the two middle elements for even length. -/
def npMedian (l : List ℚ) : ℚ :=
  let s := l.mergeSort (fun a b => decide (a ≤ b))
  if l.length % 2 = 1 then s.getD (l.length / 2) 0
  else (s.getD (l.length / 2 - 1) 0 + s.getD (l.length / 2) 0) / 2

/-- One entry of the `min_max` dict: `(np.min(v), np.max(v), np.median(v))`
for an index array `v`, indexed positionally like the source tuple. -/
def min_max (A : Arr (m+1) (n+1)) : Fin 3 → ℚ
  | 0 => amin A
  | 1 => amax A
  | 2 => npMedian (flattenA A)

/-- The classification rule used in `update_figure`:
`np.where(index >= thd, 0.8 * np.max(index), 0.8 * np.min(index))`. -/
def classify (A : Arr (m+1) (n+1)) (thd : ℚ) : Arr (m+1) (n+1) :=
  fun i j => if A i j ≥ thd then 0.8 * amax A else 0.8 * amin A

/-- The set of distinct pixel values of a classification map. -/
def valsOf (A : Arr (m+1) (n+1)) (thd : ℚ) : Finset ℚ :=
  Finset.univ.image (fun p : Fin (m+1) × Fin (n+1) => classify A thd p.1 p.2)

/-- Number of pixels assigned the high level `0.8 * np.max` by `classify`. -/
def highCount (A : Arr (m+1) (n+1)) (thd : ℚ) : ℕ :=
  (Finset.univ.filter
    (fun p : Fin (m+1) × Fin (n+1) => classify A thd p.1 p.2 = 0.8 * amax A)).card

/-- The five single-channel bands read by `index_store`, i.e. the entries
`store['B03'] … store['B11']`; the §3 shape invariant makes them share one
(non-empty) grid. -/
structure Bands (m n : ℕ) where
  B03 : Arr (m+1) (n+1)
  B04 : Arr (m+1) (n+1)
  B05 : Arr (m+1) (n+1)
  B08A : Arr (m+1) (n+1)
  B11 : Arr (m+1) (n+1)

/-- `index_store['TCARI']`. -/
def tcari (bs : Bands m n) : Arr (m+1) (n+1) :=
  fun i j =>
    bs.B03 i j *
      ((bs.B05 i j - bs.B04 i j) -
        0.2 * (bs.B05 i j - bs.B03 i j) * (bs.B05 i j / bs.B04 i j))

/-- `index_store['VI700']`. -/
def vi700 (bs : Bands m n) : Arr (m+1) (n+1) :=
  fun i j => (bs.B05 i j - bs.B04 i j) / (bs.B05 i j + bs.B04 i j)

/-- `index_store['Soil Composition Index']`. -/
def soil_composition (bs : Bands m n) : Arr (m+1) (n+1) :=
  fun i j => (bs.B11 i j - bs.B08A i j) / (bs.B11 i j + bs.B08A i j)

/-- The `index_store` dict as a partial lookup: `none` models the
`KeyError` raised on an unknown key. -/
def index_store (bs : Bands m n) : String → Option (Arr (m+1) (n+1)) :=
  fun k =>
    if k = "TCARI" then some (tcari bs)
    else if k = "VI700" then some (vi700 bs)
    else if k = "Soil Composition Index" then some (soil_composition bs)
    else none

/-- The fixed enumeration of index names offered by the dropdown. -/
def index_names : List String := ["TCARI", "VI700", "Soil Composition Index"]

/-- The `min_max` dict: for each key of `index_store`, the
(min, max, median) triple of that index array. -/
def min_max_store (bs : Bands m n) : String → Option (Fin 3 → ℚ) :=
  fun k => (index_store bs k).map (fun A => min_max A)

/-- `np.swapaxes(d, 2, 0)` on a 3D array. -/
def swapaxes_2_0 {a b c : ℕ} (d : Fin a → Fin b → Fin c → ℚ) :
    Fin c → Fin b → Fin a → ℚ :=
  fun i j k => d k j i

/-- `np.swapaxes(d, 0, 1)` on a 3D array. -/
def swapaxes_0_1 {a b c : ℕ} (d : Fin a → Fin b → Fin c → ℚ) :
    Fin b → Fin a → Fin c → ℚ :=
  fun i j k => d j i k

/-- The triband branch of the loader: `np.swapaxes(data, 2, 0)` followed by
`np.swapaxes(data, 0, 1)` applied to the channel-first `(3, R, C)` read. -/
def triband_reorder {r c : ℕ} (raw : Fin 3 → Fin r → Fin c → ℚ) :
    Fin r → Fin c → Fin 3 → ℚ :=
  swapaxes_0_1 (swapaxes_2_0 raw)

/-- The key under which a decoded file is stored: the literal band name for
the reserved composite marker, otherwise the name with the `B` marker
prepended (f-string `f'B⟨band_name⟩'`). -/
def store_key (bn : String) : String := if bn = "triband" then bn else "B" ++ bn

/-- `str.split('_')` on a character list: tokens between underscores,
keeping empty tokens, as Python does for a non-empty separator. -/
def splitU : List Char → List (List Char)
  | [] => [[]]
  | ch :: cs =>
    let r := splitU cs
    if ch = '_' then [] :: r
    else
      match r with
      | [] => [[ch]]
      | t :: ts => (ch :: t) :: ts

/-- Band-name derivation from a filename:
`filename.replace('.', '_').split(sep='_')[-2]`.  `none` models the
`IndexError` raised when fewer than two tokens result. -/
def band_name (filename : String) : Option String :=
  let toks := splitU (filename.data.map (fun ch => if ch = '.' then '_' else ch))
  if h : 2 ≤ toks.length then
    some (String.mk (toks.get ⟨toks.length - 2, by omega⟩))
  else none

/-- A Python dict keyed by strings; insertion overwrites silently. -/
def dict_set {α : Type} (s : String → Option α) (k : String) (v : α) :
    String → Option α :=
  fun q => if q = k then some v else s q

/-- The startup loader loop over the data directory: derive each file's
band name and store its decoded payload under `store_key`; a filename
yielding no band name aborts startup (`none`), so no partial store is
published. -/
def load_store (files : List (String × ℚ)) : Option (String → Option ℚ) :=
  files.foldl
    (fun acc f =>
      acc.bind (fun s => (band_name f.1).map (fun bn => dict_set s (store_key bn) f.2)))
    (some (fun _ => none))

/-- The module-level state read by the callbacks: the stored composite
array and the five bands feeding `index_store`. -/
structure GState (m n : ℕ) where
  triband : Fin (m+1) → Fin (n+1) → Fin 3 → ℚ
  bands : Bands m n

/-- The three traces of the figure built by `update_figure`: the composite,
the selected index array, and the thresholded classification map. -/
abbrev Fig (m n : ℕ) : Type :=
  (Fin (m+1) → Fin (n+1) → Fin 3 → ℚ) × Arr (m+1) (n+1) × Arr (m+1) (n+1)

/-- The callback `update_figure(selected_index, thd)` in state-passing
form: it reads the module state and returns it unchanged together with the
figure; `none` models the `KeyError` on an unknown index name. -/
def update_figure (σ : GState m n) (selected_index : String) (thd : ℚ) :
    GState m n × Option (Fig m n) :=
  (σ, (index_store σ.bands selected_index).map
        (fun A => (σ.triband, A, classify A thd)))

/-- The callback `update_slider(selected_index)`: the rounded
(min, max, median) of the selected index; `none` models the `KeyError` on
an unknown index name. -/
def update_slider (σ : GState m n) (selected_index : String) : Option (ℚ × ℚ × ℚ) :=
  (min_max_store σ.bands selected_index).map
    (fun mm => (set_limit mm 0, set_limit mm 1, set_limit mm 2))

/-- Concrete 1×1 index array holding `-0.2345`. -/
def cexA : Arr 1 1 := fun _ _ => -2345/10000

/-- Concrete 1×2 index array with pixels `0` and `1`. -/
def cexB : Arr 1 2 := fun _ j =>
  match j with
  | 0 => 0
  | 1 => 1

/-- Concrete bands over a 1×1 grid with `B04 = 2` and `B05 = 4`. -/
def bs0 : Bands 0 0 :=
  ⟨fun _ _ => 1, fun _ _ => 2, fun _ _ => 4, fun _ _ => 1, fun _ _ => 1⟩

/-- Concrete module state over a 1×1 grid. -/
def σ0 : GState 0 0 := ⟨fun _ _ _ => 0, bs0⟩

/-- Concrete channel-first 3-channel raster with distinguishable
per-channel constant values. -/
def raw0 : Fin 3 → Fin 1 → Fin 1 → ℚ := fun ch _ _ => (ch : ℚ)

/-! ## Helper lemmas -/

theorem roundHalfEven_le (q : ℚ) : (roundHalfEven q : ℚ) ≤ q + 1/2 := by
  have h1 := Int.floor_le q
  have h2 := Int.lt_floor_add_one q
  unfold roundHalfEven
  split_ifs <;> push_cast <;> linarith

theorem le_roundHalfEven (q : ℚ) : q - 1/2 ≤ (roundHalfEven q : ℚ) := by
  have h2 := Int.lt_floor_add_one q
  unfold roundHalfEven
  split_ifs with ha hb <;> push_cast <;> linarith

theorem set_limit_le (limits : Fin 3 → ℚ) (idx : Fin 3) :
    set_limit limits idx ≤ limits idx + 3/50 := by
  unfold set_limit round1
  split_ifs with h
  · have h1 := Int.floor_le (limits idx * 100)
    have h2 := roundHalfEven_le ((Int.floor (limits idx * 100) : ℚ) / 100 * 10)
    linarith
  · have h1 := Int.ceil_lt_add_one (limits idx * 100)
    have h2 := roundHalfEven_le ((Int.ceil (limits idx * 100) : ℚ) / 100 * 10)
    linarith

theorem le_set_limit (limits : Fin 3 → ℚ) (idx : Fin 3) :
    limits idx - 3/50 ≤ set_limit limits idx := by
  unfold set_limit round1
  split_ifs with h
  · have h1 := Int.lt_floor_add_one (limits idx * 100)
    have h2 := le_roundHalfEven ((Int.floor (limits idx * 100) : ℚ) / 100 * 10)
    linarith
  · have h1 := Int.le_ceil (limits idx * 100)
    have h2 := le_roundHalfEven ((Int.ceil (limits idx * 100) : ℚ) / 100 * 10)
    linarith

theorem set_limit_neg_example : set_limit (tri (-2345/10000) 0 0) 0 = -1/5 := by
  have h0 : tri (-2345/10000) 0 0 0 = -2345/10000 := rfl
  have hfl : Int.floor ((-2345 : ℚ)/10000 * 100) = -24 := by norm_num
  rw [set_limit, h0, if_pos (by norm_num : ((-2345 : ℚ)/10000) < 0), hfl]
  simp only [round1, roundHalfEven]
  norm_num

theorem set_limit_pos_example : set_limit (tri (2345/10000) 0 0) 0 = 1/5 := by
  have h0 : tri (2345/10000) 0 0 0 = 2345/10000 := rfl
  have hcl : Int.ceil ((2345 : ℚ)/10000 * 100) = 24 := by
    rw [Int.ceil_eq_iff]
    norm_num
  rw [set_limit, h0, if_neg (by norm_num : ¬ ((2345 : ℚ)/10000 < 0)), hcl]
  simp only [round1, roundHalfEven]
  norm_num

theorem amin_le (A : Arr (m+1) (n+1)) (i : Fin (m+1)) (j : Fin (n+1)) :
    amin A ≤ A i j :=
  Finset.inf'_le _ (Finset.mem_univ (i, j))

theorem le_amax (A : Arr (m+1) (n+1)) (i : Fin (m+1)) (j : Fin (n+1)) :
    A i j ≤ amax A := by
  unfold amax
  exact Finset.le_sup' (fun p : Fin (m+1) × Fin (n+1) => A p.1 p.2)
    (Finset.mem_univ (i, j))

theorem set_limit_congr (limits limits' : Fin 3 → ℚ) (idx idx' : Fin 3)
    (h : limits idx = limits' idx') : set_limit limits idx = set_limit limits' idx' := by
  unfold set_limit
  rw [h]

theorem exists_amin (A : Arr (m+1) (n+1)) : ∃ i j, A i j = amin A := by
  obtain ⟨p, -, hp⟩ :=
    Finset.exists_mem_eq_inf' (Finset.univ_nonempty
      (α := Fin (m+1) × Fin (n+1))) (fun p : Fin (m+1) × Fin (n+1) => A p.1 p.2)
  exact ⟨p.1, p.2, hp.symm⟩

theorem exists_amax (A : Arr (m+1) (n+1)) : ∃ i j, A i j = amax A := by
  obtain ⟨p, -, hp⟩ :=
    Finset.exists_mem_eq_sup' (Finset.univ_nonempty
      (α := Fin (m+1) × Fin (n+1))) (fun p : Fin (m+1) × Fin (n+1) => A p.1 p.2)
  exact ⟨p.1, p.2, hp.symm⟩

theorem cexA_amin : amin cexA = -2345/10000 := Finset.inf'_const _ _
theorem cexA_amax : amax cexA = -2345/10000 := Finset.sup'_const _ _

/-! ## Claim C1 -/

/-- C1 (counterexample): on the 1×1 index array holding `-0.2345`, the
rounded minimum `set_limit(min_max, 0) = -0.2` is strictly greater than the
true minimum, so outward rounding does not always contain the true min. -/
theorem C1_counterexample :
    ¬ (set_limit (min_max cexA) 0 ≤ amin cexA ∧
        amax cexA ≤ set_limit (min_max cexA) 1) := by
  rintro ⟨h, -⟩
  have h0 : min_max cexA 0 = amin cexA := rfl
  have he : set_limit (min_max cexA) 0 = -1/5 := by
    rw [set_limit_congr (min_max cexA) (tri (-2345/10000) 0 0) 0 0 cexA_amin]
    exact set_limit_neg_example
  rw [he, cexA_amin] at h
  norm_num at h

/-- C1 (amended): the two-stage rounding of `set_limit` is outward only up
to a tolerance of `3/50 = 0.06`: for every non-empty index array,
`set_limit(min_max, 0) ≤ min + 0.06` and `set_limit(min_max, 1) ≥ max - 0.06`
(the hundredths-stage floor/ceil is outward, but the final rounding to
tenths can move the bound inward by up to `0.05`). -/
theorem C1_outward_within_tolerance (m n : ℕ) (A : Arr (m+1) (n+1)) :
    set_limit (min_max A) 0 ≤ amin A + 3/50 ∧
    amax A - 3/50 ≤ set_limit (min_max A) 1 := by
  constructor
  · have h := set_limit_le (min_max A) 0
    have h0 : min_max A 0 = amin A := rfl
    rw [h0] at h
    exact h
  · have h := le_set_limit (min_max A) 1
    have h1 : min_max A 1 = amax A := rfl
    rw [h1] at h
    exact h

/-! ## Claim C2 -/

/-- C2 (counterexample): `set_limit` on the triple with minimum `0.2345`
does not return `0.3`: the ceiling at hundredths gives `0.24`, which Python
rounds to `0.2`. -/
theorem C2_counterexample : ¬ set_limit (tri (2345/10000) 0 0) 0 = 3/10 := by
  rw [set_limit_pos_example]
  norm_num

/-- C2 (amended): `set_limit` floors (negative case) or ceils (non-negative
case) at the hundredths place and then rounds to one decimal place; the
worked examples evaluate to `set_limit(-0.2345) = -0.2` and
`set_limit(0.2345) = 0.2` (not `0.3`). -/
theorem C2_set_limit_branches (limits : Fin 3 → ℚ) (idx : Fin 3) :
    (limits idx < 0 →
      set_limit limits idx = round1 ((Int.floor (limits idx * 100) : ℚ) / 100)) ∧
    (0 ≤ limits idx →
      set_limit limits idx = round1 ((Int.ceil (limits idx * 100) : ℚ) / 100)) ∧
    set_limit (tri (-2345/10000) 0 0) 0 = -1/5 ∧
    set_limit (tri (2345/10000) 0 0) 0 = 1/5 := by
  refine ⟨fun h => ?_, fun h => ?_, set_limit_neg_example, set_limit_pos_example⟩
  · rw [set_limit, if_pos h]
  · rw [set_limit, if_neg (not_lt.mpr h)]

/-- C2 (witness): the branch rules of `C2_set_limit_branches` applied at
the concrete triples of the worked examples. -/
theorem C2_witness :
    set_limit (tri (-2345/10000) 0 0) 0 =
      round1 ((Int.floor ((tri (-2345/10000) 0 0 0) * 100) : ℚ) / 100) ∧
    set_limit (tri (2345/10000) 0 0) 0 =
      round1 ((Int.ceil ((tri (2345/10000) 0 0 0) * 100) : ℚ) / 100) :=
  ⟨(C2_set_limit_branches (tri (-2345/10000) 0 0) 0).1
      (by norm_num : ((-2345 : ℚ)/10000) < 0),
   (C2_set_limit_branches (tri (2345/10000) 0 0) 0).2.1
      (by norm_num : (0 : ℚ) ≤ 2345/10000)⟩

theorem cexB_amin : amin cexB = 0 := by
  apply le_antisymm
  · exact amin_le cexB 0 0
  · apply Finset.le_inf'
    rintro ⟨i, j⟩ -
    fin_cases j
    · exact le_refl _
    · norm_num [cexB]

theorem cexB_amax : amax cexB = 1 := by
  apply le_antisymm
  · apply Finset.sup'_le
    rintro ⟨i, j⟩ -
    fin_cases j
    · norm_num [cexB]
    · exact le_refl _
  · exact le_amax cexB 0 1

/-! ## Claim C3 -/

/-- C3: the threshold classifier sets every pixel with value `≥ thd`
(inclusive on the high side, so a pixel exactly equal to the threshold is
high) to `0.8 * max`, and every pixel strictly below `thd` to `0.8 * min`. -/
theorem C3_threshold_inclusive (m n : ℕ) (A : Arr (m+1) (n+1)) (thd : ℚ)
    (i : Fin (m+1)) (j : Fin (n+1)) :
    (thd ≤ A i j → classify A thd i j = 0.8 * amax A) ∧
    (A i j < thd → classify A thd i j = 0.8 * amin A) := by
  constructor
  · intro h
    rw [classify, if_pos h]
  · intro h
    rw [classify, if_neg (not_le.mpr h)]

/-- C3 (witness): on the concrete array `cexB` with threshold `1`, the
pixel equal to the threshold is classified high and the pixel below it is
classified low. -/
theorem C3_witness :
    classify cexB 1 0 1 = 0.8 * amax cexB ∧
    classify cexB 1 0 0 = 0.8 * amin cexB :=
  ⟨(C3_threshold_inclusive 0 1 cexB 1 0 1).1 (by norm_num [cexB]),
   (C3_threshold_inclusive 0 1 cexB 1 0 0).2 (by norm_num [cexB])⟩

/-! ## Claim C4 -/

/-- C4 (counterexample): with index array `cexB = [[0, 1]]` and threshold
`-1` (below the minimum), every pixel is classified high, so the
classification map contains one distinct value, not two. -/
theorem C4_counterexample :
    ¬ (valsOf cexB (-1) = {0.8 * amin cexB, 0.8 * amax cexB} ∧
        (valsOf cexB (-1)).card = 2) := by
  rintro ⟨-, hcard⟩
  have hval : valsOf cexB (-1) = {0.8 * 1} := by
    rw [valsOf]
    rw [Finset.image_congr (g := fun _ => 0.8 * (1 : ℚ)) ?_]
    · exact Finset.image_const Finset.univ_nonempty _
    · rintro ⟨i, j⟩ -
      have hij : cexB i j ≥ -1 := by
        fin_cases j
        · norm_num [cexB]
        · norm_num [cexB]
      show classify cexB (-1) i j = 0.8 * 1
      rw [classify, if_pos hij, cexB_amax]
  rw [hval] at hcard
  simp at hcard

/-- C4 (amended): every pixel of the classification map equals
`0.8 * min` or `0.8 * max`; when the threshold lies strictly above the
minimum and at most the maximum, the map contains exactly the two distinct
values `0.8 * min` and `0.8 * max`. -/
theorem C4_two_values (m n : ℕ) (A : Arr (m+1) (n+1)) (thd : ℚ) :
    (∀ i j, classify A thd i j = 0.8 * amin A ∨ classify A thd i j = 0.8 * amax A) ∧
    (amin A < thd → thd ≤ amax A →
      valsOf A thd = {0.8 * amin A, 0.8 * amax A} ∧ (valsOf A thd).card = 2) := by
  have hmem : ∀ i j, classify A thd i j = 0.8 * amin A ∨
      classify A thd i j = 0.8 * amax A := by
    intro i j
    rw [classify]
    split_ifs
    · exact Or.inr rfl
    · exact Or.inl rfl
  refine ⟨hmem, fun hlo hhi => ?_⟩
  have hlt : amin A < amax A := lt_of_lt_of_le hlo hhi
  have hne : (0.8 : ℚ) * amin A ≠ 0.8 * amax A := by
    intro h
    have := mul_left_cancel₀ (by norm_num : (0.8 : ℚ) ≠ 0) h
    exact absurd this (ne_of_lt hlt)
  have hset : valsOf A thd = {0.8 * amin A, 0.8 * amax A} := by
    apply Finset.ext
    intro x
    constructor
    · intro hx
      obtain ⟨p, -, hp⟩ := Finset.mem_image.mp hx
      rcases hmem p.1 p.2 with h | h <;> rw [← hp, h] <;> simp
    · intro hx
      rcases Finset.mem_insert.mp hx with h | h
      · obtain ⟨i, j, hij⟩ := exists_amin A
        have : classify A thd i j = 0.8 * amin A := by
          rw [classify, if_neg (not_le.mpr (by rw [hij]; exact hlo))]
        rw [h]
        exact Finset.mem_image.mpr ⟨(i, j), Finset.mem_univ _, this⟩
      · obtain ⟨i, j, hij⟩ := exists_amax A
        have : classify A thd i j = 0.8 * amax A := by
          rw [classify, if_pos (by rw [hij]; exact hhi)]
        rw [Finset.mem_singleton.mp h]
        exact Finset.mem_image.mpr ⟨(i, j), Finset.mem_univ _, this⟩
  exact ⟨hset, by rw [hset]; exact Finset.card_pair hne⟩

/-- C4 (witness): on `cexB = [[0, 1]]` with threshold `1/2` strictly
between min and max, the classification map has exactly the two values. -/
theorem C4_witness :
    valsOf cexB (1/2) = {0.8 * amin cexB, 0.8 * amax cexB} ∧
    (valsOf cexB (1/2)).card = 2 :=
  (C4_two_values 0 1 cexB (1/2)).2
    (by rw [cexB_amin]; norm_num)
    (by rw [cexB_amax]; norm_num)

/-! ## Claim C5 -/

/-- C5: the composite raster's raw `(3, R, C)` channel-first read is stored
with the channel axis last, `stored[r][c][ch] = raw[ch][r][c]`, under the
literal reserved key `triband` with no `B` prefix, while every
single-channel band name is stored under its identifier prefixed with `B`. -/
theorem C5_triband_storage (r c : ℕ) (raw : Fin 3 → Fin r → Fin c → ℚ)
    (i : Fin r) (j : Fin c) (ch : Fin 3) (bn : String) (hbn : bn ≠ "triband") :
    triband_reorder raw i j ch = raw ch i j ∧
    store_key "triband" = "triband" ∧
    store_key bn = "B" ++ bn := by
  refine ⟨rfl, rfl, ?_⟩
  rw [store_key, if_neg hbn]

/-- C5 (witness): `C5_triband_storage` at a concrete 3-channel raster with
distinguishable per-channel constants and the band name `03`. -/
theorem C5_witness :
    triband_reorder raw0 0 0 2 = raw0 2 0 0 ∧
    store_key "triband" = "triband" ∧
    store_key "03" = "B" ++ "03" :=
  C5_triband_storage 1 1 raw0 0 0 2 "03" (by decide)

/-! ## Claim C6 -/

/-- C6: each index is computed element-wise by its fixed formula over
same-shaped bands (the output grid is the bands' grid by construction), and
for constant bands `B04 = 2`, `B05 = 4` every pixel of `VI700` equals
`(4-2)/(4+2) = 1/3`. -/
theorem C6_index_formulas (m n : ℕ) (bs : Bands m n) :
    (∀ i j, tcari bs i j =
      bs.B03 i j * ((bs.B05 i j - bs.B04 i j) -
        0.2 * (bs.B05 i j - bs.B03 i j) * (bs.B05 i j / bs.B04 i j))) ∧
    (∀ i j, vi700 bs i j = (bs.B05 i j - bs.B04 i j) / (bs.B05 i j + bs.B04 i j)) ∧
    (∀ i j, soil_composition bs i j =
      (bs.B11 i j - bs.B08A i j) / (bs.B11 i j + bs.B08A i j)) ∧
    ((∀ i j, bs.B04 i j = 2) → (∀ i j, bs.B05 i j = 4) →
      ∀ i j, vi700 bs i j = 1/3) := by
  refine ⟨fun i j => rfl, fun i j => rfl, fun i j => rfl, fun h4 h5 i j => ?_⟩
  rw [vi700]
  rw [h4 i j, h5 i j]
  norm_num

/-- C6 (witness): over the concrete constant bands `bs0` (`B04 = 2`,
`B05 = 4`), `VI700` evaluates to `1/3` at the single pixel. -/
theorem C6_witness : vi700 bs0 0 0 = 1/3 :=
  (C6_index_formulas 0 0 bs0).2.2.2 (fun _ _ => rfl) (fun _ _ => rfl) 0 0

/-! ## Claim C7 -/

/-- C7: an index name outside the fixed enumeration makes both
`update_figure` and `update_slider` fail with a lookup error (`none`)
rather than return a default, while for any name in the enumeration every
finite threshold succeeds. -/
theorem C7_unknown_index_lookup (m n : ℕ) (σ : GState m n) (sel : String) (thd : ℚ) :
    (sel ∉ index_names →
      (update_figure σ sel thd).2 = none ∧ update_slider σ sel = none) ∧
    (sel ∈ index_names →
      ((update_figure σ sel thd).2).isSome = true ∧
      (update_slider σ sel).isSome = true) := by
  constructor
  · intro h
    simp only [index_names, List.mem_cons, List.not_mem_nil, or_false, not_or] at h
    obtain ⟨h1, h2, h3⟩ := h
    constructor
    · simp [update_figure, index_store, h1, h2, h3]
    · simp [update_slider, min_max_store, index_store, h1, h2, h3]
  · intro h
    simp only [index_names, List.mem_cons, List.not_mem_nil, or_false] at h
    rcases h with rfl | rfl | rfl <;>
      simp [update_figure, update_slider, min_max_store, index_store]

/-- C7 (witness): on the concrete state `σ0`, the unknown name `NDVI`
yields lookup failures and the known name `TCARI` succeeds with threshold
`1000000`. -/
theorem C7_witness :
    ((update_figure σ0 "NDVI" 0).2 = none ∧ update_slider σ0 "NDVI" = none) ∧
    (((update_figure σ0 "TCARI" 1000000).2).isSome = true ∧
      (update_slider σ0 "TCARI").isSome = true) :=
  ⟨(C7_unknown_index_lookup 0 0 σ0 "NDVI" 0).1 (by decide),
   (C7_unknown_index_lookup 0 0 σ0 "TCARI" 1000000).2 (by decide)⟩

/-! ## Claim C8 -/

/-- C8 (counterexample): two files deriving the same band name `03` do not
make loading fail: the store is published, and the shared key `B03` holds
the second file's data, silently replacing the first file's. -/
theorem C8_counterexample :
    (load_store [("a_03.tif", (1 : ℚ)), ("b_03.tif", (2 : ℚ))]).isSome = true ∧
    (load_store [("a_03.tif", (1 : ℚ)), ("b_03.tif", (2 : ℚ))]).map
      (fun s => s "B03") = some (some 2) := by
  constructor
  · rfl
  · rfl

/-- C8 (amended): a band-name collision is not fatal; loading succeeds and
publishes a store in which the shared key holds the later file's array
(last-writer-wins). -/
theorem C8_collision_last_writer_wins (f1 f2 : String) (d1 d2 : ℚ) (bn : String)
    (h1 : band_name f1 = some bn) (h2 : band_name f2 = some bn)
    (hb : bn ≠ "triband") :
    (load_store [(f1, d1), (f2, d2)]).map (fun s => s ("B" ++ bn)) =
      some (some d2) := by
  simp only [load_store, List.foldl_cons, List.foldl_nil, Option.bind_some, h1, h2,
    Option.map_some, Option.bind_map]
  simp [dict_set, store_key, hb]

/-- C8 (witness): `C8_collision_last_writer_wins` at the concrete colliding
filenames `a_03.tif` and `b_03.tif`. -/
theorem C8_witness :
    (load_store [("a_03.tif", (3 : ℚ)), ("b_03.tif", (4 : ℚ))]).map
      (fun s => s ("B" ++ "03")) = some (some 4) :=
  C8_collision_last_writer_wins "a_03.tif" "b_03.tif" 3 4 "03" rfl rfl (by decide)

/-! ## Claim C9 -/

/-- C9: `update_figure` is deterministic and side-effect-free: identical
(selected index, threshold) inputs over the same module state produce
identical figures, and the module state (band store and hence every index
array) is returned unchanged. -/
theorem C9_update_figure_pure (m n : ℕ) (σ : GState m n)
    (sel sel' : String) (thd thd' : ℚ) (hs : sel = sel') (ht : thd = thd') :
    (update_figure σ sel thd).2 = (update_figure σ sel' thd').2 ∧
    (update_figure σ sel thd).1 = σ := by
  subst hs
  subst ht
  exact ⟨rfl, rfl⟩

/-- C9 (witness): `C9_update_figure_pure` at the concrete state `σ0` with
index `TCARI` and threshold `0`. -/
theorem C9_witness :
    (update_figure σ0 "TCARI" 0).2 = (update_figure σ0 "TCARI" 0).2 ∧
    (update_figure σ0 "TCARI" 0).1 = σ0 :=
  C9_update_figure_pure 0 0 σ0 "TCARI" "TCARI" 0 0 rfl rfl

/-! ## Claim C10 -/

/-- C10: the classifier's high region is antitone in the threshold: for
`t1 ≤ t2`, every pixel assigned the high level `0.8 * max` at `t2` is also
assigned it at `t1`, so the high-pixel count is non-increasing in the
threshold. -/
theorem C10_high_region_antitone (m n : ℕ) (A : Arr (m+1) (n+1)) (t1 t2 : ℚ)
    (h : t1 ≤ t2) :
    (∀ i j, classify A t2 i j = 0.8 * amax A →
      classify A t1 i j = 0.8 * amax A) ∧
    highCount A t2 ≤ highCount A t1 := by
  have hpt : ∀ i j, classify A t2 i j = 0.8 * amax A →
      classify A t1 i j = 0.8 * amax A := by
    intro i j hc
    by_cases hge : t1 ≤ A i j
    · rw [classify, if_pos hge]
    · have hlt : A i j < t2 := lt_of_lt_of_le (not_le.mp hge) h
      rw [classify, if_neg (not_le.mpr hlt)] at hc
      rw [classify, if_neg hge]
      exact hc
  refine ⟨hpt, ?_⟩
  apply Finset.card_le_card
  intro p hp
  rw [Finset.mem_filter] at hp ⊢
  exact ⟨Finset.mem_univ _, hpt p.1 p.2 hp.2⟩

/-- C10 (witness): on `cexB` the high-pixel count at threshold `1` is at
most the count at threshold `1/2`. -/
theorem C10_witness : highCount cexB 1 ≤ highCount cexB (1/2) :=
  (C10_high_region_antitone 0 1 cexB (1/2) 1 (by norm_num)).2

end Geoviz
